import Mathlib

/-!
# zapslack: a zap hook that forwards log entries to a Slack webhook

A shallow embedding of `slack.go` (package `zapslack`) and of the hook built in
`examples/app.go`, followed by theorems about level filtering, payload
construction, `LevelThreshold` and the dispatch paths of `postMessage`.

Modelling conventions

* `zapcore.Level` is an `int8`; it is embedded in `Int` with the constants of
  the zapcore package.  No arithmetic is performed on levels, only `==`.
* A Go slice that may be `nil` is an `Option (List _)`: `none` is the nil slice,
  `some []` the empty non-nil slice.
* A Go `error` is `Option GoError`: `none` is `nil`.
* The webhook client (`github.com/bluele/slack`) is external.  Its
  `PostMessage` is a parameter `client : WebHook → WebHookPostPayload → error`
  giving the outcome of a send.
* The goroutine, the buffered channel, the timer and the `select` of
  `postMessage` are a step function on an explicit state, driven by a schedule
  (a list of actions); durations are abstracted to the order of the events.
-/

namespace zapslack

/-! ## zapcore levels and entries -/

/-- Severity of a log entry: `zapcore.Level`, an `int8`. -/
abbrev Level := Int

def DebugLevel : Level := -1
def InfoLevel : Level := 0
def WarnLevel : Level := 1
def ErrorLevel : Level := 2
def DPanicLevel : Level := 3
def PanicLevel : Level := 4
def FatalLevel : Level := 5

/-- The fields of `zapcore.Entry` read by the hook. -/
structure Entry where
  Level : Level
  Message : String
deriving DecidableEq, Repr

/-! ## Errors -/

/-- Non-nil Go error values, compared by identity. -/
inductive GoError where
  /-- The package variable `TimeoutError = errors.New("Request timed out")`. -/
  | timedOut
  /-- An error value produced by the webhook client. -/
  | transport (msg : String)
deriving DecidableEq, Repr

/-- Go `error`: `none` is `nil`. -/
abbrev error := Option GoError

def TimeoutError : GoError := GoError.timedOut

/-! ## Types of the webhook client library -/

/-- The fields of `slack.Attachment` assigned by the hook; the others keep
their zero value. -/
structure Attachment where
  Fallback : String := ""
  Color : String := ""
  Text : String := ""
deriving DecidableEq, Repr

/-- The fields of `slack.WebHookPostPayload` assigned by the hook; the others
keep their zero value. -/
structure WebHookPostPayload where
  Username : String := ""
  Channel : String := ""
  IconEmoji : String := ""
  IconUrl : String := ""
  Attachments : List Attachment := []
deriving DecidableEq, Repr

/-- The client handle `*slack.WebHook`, built from a URL. -/
structure WebHook where
  hookURL : String
deriving DecidableEq, Repr

/-- Constructor `slack.NewWebHook(url)`. -/
def NewWebHook (url : String) : WebHook := { hookURL := url }

/-! ## SlackHook -/

/-- The struct `SlackHook`.  The unexported pair `hook`/`once` is the single
field `hook`: it is `none` until the `once.Do` of the first callback ran. -/
structure SlackHook where
  AcceptedLevels : Option (List Level) := none
  HookURL : String := ""
  Username : String := ""
  Channel : String := ""
  IconEmoji : String := ""
  IconURL : String := ""
  FieldHeader : String := ""
  Timeout : Int := 0
  Async : Bool := false
  hook : Option WebHook := none
deriving DecidableEq, Repr

/-- Supported log levels (`var AllLevels`). -/
def AllLevels : List Level :=
  [DebugLevel, InfoLevel, WarnLevel, ErrorLevel, FatalLevel, PanicLevel]

/-- The map literal `LevelColorMap`, as an association list in source order. -/
def LevelColorTable : List (Level × String) :=
  [ (DebugLevel, "#9B30FF"),
    (InfoLevel, "good"),
    (WarnLevel, "warning"),
    (ErrorLevel, "danger"),
    (FatalLevel, "danger"),
    (PanicLevel, "danger") ]

/-- Map lookup `LevelColorMap[l]` with the comma-ok flag: `none` when the key
is absent. -/
def LevelColorMap (l : Level) : Option String :=
  LevelColorTable.lookup l

/-- `NewSlackHook(hookURL, level)`. -/
def NewSlackHook (hookURL : String) (level : Level) : SlackHook :=
  { HookURL := hookURL, AcceptedLevels := some [level] }

/-- `(*SlackHook).Levels`. -/
def SlackHook.Levels (sh : SlackHook) : List Level :=
  match sh.AcceptedLevels with
  | none => AllLevels
  | some ls => ls

/-- The `for _, lv := range ...` loop of `isAcceptedLevel`. -/
def isAcceptedLevelLoop (level : Level) : List Level → Bool
  | [] => false
  | lv :: rest => if lv = level then true else isAcceptedLevelLoop level rest

/-- `(*SlackHook).isAcceptedLevel`. -/
def SlackHook.isAcceptedLevel (sh : SlackHook) (level : Level) : Bool :=
  isAcceptedLevelLoop level sh.Levels

/-- The `for i := range AllLevels` loop of `LevelThreshold`: `i` is the loop
index and the list argument holds the elements not yet visited. -/
def LevelThresholdLoop (l : Level) : Nat → List Level → List Level
  | _, [] => []
  | i, x :: rest => if x = l then AllLevels.drop i else LevelThresholdLoop l (i + 1) rest

/-- `LevelThreshold(l)`. -/
def LevelThreshold (l : Level) : List Level :=
  LevelThresholdLoop l 0 AllLevels

/-! ## postMessage: the race between the send and the timer -/

/-- Where the caller stands inside the timeout branch of `postMessage`. -/
inductive MainPc where
  /-- Blocked at the first receive `<-ech`. -/
  | recvFirst
  /-- The placeholder is received and `time.After(sh.Timeout)` evaluated; the
  `select` has not examined its cases yet. -/
  | selecting
  /-- Blocked in the `select`: no case was ready when it examined them. -/
  | parked
  /-- Left `postMessage` with this value. -/
  | returned (err : error)
deriving DecidableEq, Repr

/-- Where the goroutine started by `postMessage` stands. -/
inductive WorkerPc where
  /-- At `ch <- nil`. -/
  | sendPlaceholder
  /-- About to evaluate `sh.hook.PostMessage(payload)`. -/
  | callPost
  /-- Holds the result of the call and is at the second `ch <- ...`. -/
  | sendResult (r : error)
  /-- The goroutine ended. -/
  | finished
deriving DecidableEq, Repr

/-- State of the timer behind `time.After(sh.Timeout)`. -/
inductive Timer where
  /-- Not created yet: the `select` has not been entered. -/
  | idle
  /-- Created, the duration has not elapsed. -/
  | running
  /-- The duration elapsed: the timer channel is ready. -/
  | fired
deriving DecidableEq, Repr

/-- State of one execution of the timeout branch.  `ech` is the buffered
channel of capacity 1; `posts` lists the payloads handed to `PostMessage`. -/
structure RaceState where
  main : MainPc
  worker : WorkerPc
  ech : Option error
  timer : Timer
  posts : List WebHookPostPayload
deriving DecidableEq, Repr

/-- One scheduling decision. -/
inductive Action where
  /-- The goroutine executes its next statement. -/
  | worker
  /-- The caller completes `<-ech` and enters the `select`. -/
  | recvFirst
  /-- The duration of the timer elapses. -/
  | timerFire
  /-- The `select` examines its cases and takes `case err := <-ech`. -/
  | selectRecv
  /-- The `select` examines its cases and takes `case <-time.After(sh.Timeout)`. -/
  | selectTimeout
  /-- The `select` examines its cases, finds none ready and blocks. -/
  | selectBlock
deriving DecidableEq, Repr

/-- State right after `go func(ch chan error) ...` was started. -/
def raceInit : RaceState :=
  { main := MainPc.recvFirst, worker := WorkerPc.sendPlaceholder, ech := none,
    timer := Timer.idle, posts := [] }

/-- One step of the timeout branch; `none` when the action is not enabled
(a send on a full channel, a receive on an empty one, a timer not fired).

The `select` follows the Go rules: when it examines its cases it takes one that
is ready, either of them when both are, and blocks when none is.  A caller
blocked in the `select` is resumed by the first communication that becomes
possible: the send of the goroutine hands its value to the caller, the expiry
of the timer makes the caller leave with `TimeoutError`. -/
def raceStep (client : WebHook → WebHookPostPayload → error) (hook : WebHook)
    (payload : WebHookPostPayload) : Action → RaceState → Option RaceState
  | Action.worker, s =>
    match s.worker, s.ech with
    | WorkerPc.sendPlaceholder, none =>
      some { s with worker := WorkerPc.callPost, ech := some none }
    | WorkerPc.callPost, _ =>
      some { s with worker := WorkerPc.sendResult (client hook payload),
                    posts := s.posts ++ [payload] }
    | WorkerPc.sendResult r, none =>
      match s.main with
      | MainPc.parked => some { s with worker := WorkerPc.finished, main := MainPc.returned r }
      | _ => some { s with worker := WorkerPc.finished, ech := some r }
    | _, _ => none
  | Action.recvFirst, s =>
    match s.main, s.ech with
    | MainPc.recvFirst, some _ =>
      some { s with main := MainPc.selecting, ech := none, timer := Timer.running }
    | _, _ => none
  | Action.timerFire, s =>
    match s.timer with
    | Timer.running =>
      match s.main with
      | MainPc.parked =>
        some { s with timer := Timer.fired, main := MainPc.returned (some TimeoutError) }
      | _ => some { s with timer := Timer.fired }
    | _ => none
  | Action.selectRecv, s =>
    match s.main, s.ech with
    | MainPc.selecting, some err => some { s with main := MainPc.returned err, ech := none }
    | _, _ => none
  | Action.selectTimeout, s =>
    match s.main, s.timer with
    | MainPc.selecting, Timer.fired =>
      some { s with main := MainPc.returned (some TimeoutError) }
    | _, _ => none
  | Action.selectBlock, s =>
    match s.main, s.ech, s.timer with
    | MainPc.selecting, none, Timer.running => some { s with main := MainPc.parked }
    | _, _, _ => none

/-- Run a schedule; an action that is not enabled leaves the state as it is. -/
def runRace (client : WebHook → WebHookPostPayload → error) (hook : WebHook)
    (payload : WebHookPostPayload) : List Action → RaceState → RaceState
  | [], s => s
  | a :: rest, s =>
    match raceStep client hook payload a s with
    | some t => runRace client hook payload rest t
    | none => runRace client hook payload rest s

/-- The value the caller left with, if it has. -/
def MainPc.result : MainPc → Option error
  | MainPc.returned err => some err
  | _ => none

/-- What one invocation of `postMessage` did: `ret` is the returned value
(`none` while the caller is still blocked), `posts` the payloads handed to
`PostMessage`. -/
structure PostRun where
  ret : Option error
  posts : List WebHookPostPayload
deriving DecidableEq, Repr

/-- `(*SlackHook).postMessage`.  `hook` is the receiver field `sh.hook`, set by
the callback before any call; `sched` drives the timeout branch. -/
def SlackHook.postMessage (sh : SlackHook) (client : WebHook → WebHookPostPayload → error)
    (hook : WebHook) (payload : WebHookPostPayload) (sched : List Action) : PostRun :=
  if sh.Timeout ≤ 0 then
    { ret := some (client hook payload), posts := [payload] }
  else
    let s := runRace client hook payload sched raceInit
    { ret := s.main.result, posts := s.posts }

/-! ## The callback returned by GetHook -/

/-- How the callback handed the payload to `postMessage`. -/
inductive Dispatch where
  /-- By `return sh.postMessage(payload)`. -/
  | sync (payload : WebHookPostPayload) (run : PostRun)
  /-- By `go sh.postMessage(payload)`. -/
  | async (payload : WebHookPostPayload) (run : PostRun)
deriving DecidableEq, Repr

/-- The argument of the `postMessage` call. -/
def Dispatch.payload : Dispatch → WebHookPostPayload
  | Dispatch.sync p _ => p
  | Dispatch.async p _ => p

/-- What the `postMessage` call did. -/
def Dispatch.run : Dispatch → PostRun
  | Dispatch.sync _ r => r
  | Dispatch.async _ r => r

/-- Result of one call of the callback: the receiver afterwards, the returned
value (`none` while blocked inside a synchronous `postMessage`), and the
dispatch performed, if any. -/
structure CallResult where
  sh : SlackHook
  ret : Option error
  dispatch : Option Dispatch
deriving DecidableEq, Repr

/-- Payloads handed to `PostMessage` during the call, on either path. -/
def CallResult.posts (r : CallResult) : List WebHookPostPayload :=
  match r.dispatch with
  | none => []
  | some d => d.run.posts

/-- The payload built by the callback (the statements between the level test
and the dispatch). -/
def SlackHook.payload (sh : SlackHook) (e : Entry) : WebHookPostPayload :=
  let color := (LevelColorMap e.Level).getD ""
  { Username := sh.Username,
    Channel := sh.Channel,
    IconEmoji := sh.IconEmoji,
    IconUrl := sh.IconURL,
    Attachments := [{ Text := e.Message, Fallback := e.Message, Color := color }] }

/-- The client the callback uses: `sh.hook` once `sh.once.Do` has run. -/
def SlackHook.onceHook (sh : SlackHook) : WebHook :=
  match sh.hook with
  | some h => h
  | none => NewWebHook sh.HookURL

/-- The receiver after `sh.once.Do(...)`: the client is set, every exported
field is unchanged. -/
def SlackHook.onceDo (sh : SlackHook) : SlackHook :=
  { sh with hook := some sh.onceHook }

/-- The callback `sh.GetHook()` applied to an entry. -/
def SlackHook.GetHook (sh : SlackHook) (client : WebHook → WebHookPostPayload → error)
    (sched : List Action) (e : Entry) : CallResult :=
  let hook := sh.onceHook
  let sh1 := sh.onceDo
  if !sh1.isAcceptedLevel e.Level then
    { sh := sh1, ret := some none, dispatch := none }
  else
    let payload := sh1.payload e
    if sh1.Async then
      { sh := sh1, ret := some none,
        dispatch := some (Dispatch.async payload (sh1.postMessage client hook payload sched)) }
    else
      let run := sh1.postMessage client hook payload sched
      { sh := sh1, ret := run.ret, dispatch := some (Dispatch.sync payload run) }

/-- The hook of `examples/app.go`. -/
def exampleHook : SlackHook :=
  NewSlackHook "https://hooks.slack.com/services/XXXXX/YYYYY/ZZZZZ" ErrorLevel

/-! ## Invariant of the race -/

/-- The goroutine is past the placeholder and the caller has consumed it: the
channel is empty until the goroutine stores the outcome of the call. -/
def RaceInv.pastPlaceholder (outcome : error) (payload : WebHookPostPayload)
    (s : RaceState) : Prop :=
  (s.worker = WorkerPc.callPost ∧ s.ech = none ∧ s.posts = []) ∨
  (s.worker = WorkerPc.sendResult outcome ∧ s.ech = none ∧ s.posts = [payload]) ∨
  (s.worker = WorkerPc.finished ∧ s.ech = some outcome ∧ s.posts = [payload])

/-- Invariant of every state reached from `raceInit`; `outcome` is the result of
`PostMessage`. -/
def RaceInv (outcome : error) (payload : WebHookPostPayload) (s : RaceState) : Prop :=
  match s.main with
  | MainPc.recvFirst =>
    s.timer = Timer.idle ∧
    ((s.worker = WorkerPc.sendPlaceholder ∧ s.ech = none ∧ s.posts = []) ∨
     (s.worker = WorkerPc.callPost ∧ s.ech = some none ∧ s.posts = []) ∨
     (s.worker = WorkerPc.sendResult outcome ∧ s.ech = some none ∧ s.posts = [payload]))
  | MainPc.selecting =>
    s.timer ≠ Timer.idle ∧ RaceInv.pastPlaceholder outcome payload s
  | MainPc.parked =>
    s.timer = Timer.running ∧ s.ech = none ∧
    ((s.worker = WorkerPc.callPost ∧ s.posts = []) ∨
     (s.worker = WorkerPc.sendResult outcome ∧ s.posts = [payload]))
  | MainPc.returned r =>
    (r = outcome ∧ s.timer ≠ Timer.idle ∧ s.worker = WorkerPc.finished ∧ s.ech = none ∧
      s.posts = [payload]) ∨
    (r = some TimeoutError ∧ s.timer = Timer.fired ∧ RaceInv.pastPlaceholder outcome payload s)

/-- A schedule that lets a blocked caller leave through the timer. -/
def drainSchedule : List Action :=
  [Action.worker, Action.recvFirst, Action.timerFire, Action.selectTimeout]

/-! ## Lemmas on the loops -/

theorem isAcceptedLevelLoop_iff (m : Level) (ls : List Level) :
    isAcceptedLevelLoop m ls = true ↔ m ∈ ls := by
  induction ls with
  | nil => simp [isAcceptedLevelLoop]
  | cons x rest ih =>
    by_cases hx : x = m
    · simp [isAcceptedLevelLoop, hx]
    · have hm : ¬ m = x := fun h => hx h.symm
      simp [isAcceptedLevelLoop, hx, hm, ih]

theorem isAcceptedLevel_iff (sh : SlackHook) (m : Level) :
    sh.isAcceptedLevel m = true ↔ m ∈ sh.Levels := by
  simp [SlackHook.isAcceptedLevel, isAcceptedLevelLoop_iff]

theorem onceDo_Levels (sh : SlackHook) : sh.onceDo.Levels = sh.Levels := rfl

theorem onceDo_isAcceptedLevel (sh : SlackHook) (m : Level) :
    sh.onceDo.isAcceptedLevel m = sh.isAcceptedLevel m := rfl

theorem onceDo_Async (sh : SlackHook) : sh.onceDo.Async = sh.Async := rfl

theorem onceDo_Timeout (sh : SlackHook) : sh.onceDo.Timeout = sh.Timeout := rfl

theorem onceDo_payload (sh : SlackHook) (e : Entry) : sh.onceDo.payload e = sh.payload e := rfl

theorem onceDo_postMessage (sh : SlackHook) (client : WebHook → WebHookPostPayload → error)
    (hook : WebHook) (p : WebHookPostPayload) (sched : List Action) :
    sh.onceDo.postMessage client hook p sched = sh.postMessage client hook p sched := rfl

theorem LevelThresholdLoop_eq (l : Level) (rest : List Level) :
    ∀ i : Nat, AllLevels.drop i = rest →
      LevelThresholdLoop l i rest = rest.dropWhile (fun x => x != l) := by
  induction rest with
  | nil => intro i _; simp [LevelThresholdLoop]
  | cons x rest ih =>
    intro i hi
    by_cases hx : x = l
    · simp [LevelThresholdLoop, hx, List.dropWhile]
      rw [hi, hx]
    · have hnext : AllLevels.drop (i + 1) = rest := by
        have h1 : AllLevels.drop (i + 1) = (AllLevels.drop i).drop 1 := by
          rw [List.drop_drop]
        rw [h1, hi]; rfl
      have hb : (x != l) = true := by simpa using hx
      simp [LevelThresholdLoop, hx, List.dropWhile, ih (i + 1) hnext, hb]

/-! ## Level filtering -/

/-- C1: for every hook and every entry whose level is not among `sh.Levels()`,
the callback returns nil, performs no dispatch (neither the synchronous call
nor the `go` statement) and hands no payload to `PostMessage`, whatever
`Async`, `Timeout`, the client and the schedule are. -/
theorem GetHook_rejected_no_send (sh : SlackHook)
    (client : WebHook → WebHookPostPayload → error) (sched : List Action) (e : Entry)
    (h : e.Level ∉ sh.Levels) :
    (sh.GetHook client sched e).ret = some none ∧
    (sh.GetHook client sched e).dispatch = none ∧
    (sh.GetHook client sched e).posts = [] := by
  have hacc : sh.onceDo.isAcceptedLevel e.Level = false := by
    rw [onceDo_isAcceptedLevel]
    cases hb : sh.isAcceptedLevel e.Level with
    | false => rfl
    | true => exact absurd ((isAcceptedLevel_iff sh e.Level).1 hb) h
  simp [SlackHook.GetHook, hacc, CallResult.posts]

theorem GetHook_rejected_no_send_witness :
    (({ AcceptedLevels := some [WarnLevel, ErrorLevel], Async := true, Timeout := 50 }
        : SlackHook).GetHook (fun _ _ => some (GoError.transport "503"))
        [Action.worker, Action.recvFirst] ⟨InfoLevel, "started"⟩).ret = some none ∧
    (({ AcceptedLevels := some [WarnLevel, ErrorLevel], Async := true, Timeout := 50 }
        : SlackHook).GetHook (fun _ _ => some (GoError.transport "503"))
        [Action.worker, Action.recvFirst] ⟨InfoLevel, "started"⟩).dispatch = none ∧
    (({ AcceptedLevels := some [WarnLevel, ErrorLevel], Async := true, Timeout := 50 }
        : SlackHook).GetHook (fun _ _ => some (GoError.transport "503"))
        [Action.worker, Action.recvFirst] ⟨InfoLevel, "started"⟩).posts = [] :=
  GetHook_rejected_no_send _ _ _ _ (by decide)

theorem GetHook_accepted_sync (sh : SlackHook)
    (client : WebHook → WebHookPostPayload → error) (sched : List Action) (e : Entry)
    (hacc : e.Level ∈ sh.Levels) (hasync : sh.Async = false) :
    sh.GetHook client sched e =
      { sh := sh.onceDo,
        ret := (sh.postMessage client sh.onceHook (sh.payload e) sched).ret,
        dispatch := some (Dispatch.sync (sh.payload e)
          (sh.postMessage client sh.onceHook (sh.payload e) sched)) } := by
  have h1 : sh.onceDo.isAcceptedLevel e.Level = true := by
    rw [onceDo_isAcceptedLevel]; exact (isAcceptedLevel_iff sh e.Level).2 hacc
  simp [SlackHook.GetHook, h1, onceDo_Async, hasync, onceDo_payload, onceDo_postMessage]

theorem GetHook_accepted_async (sh : SlackHook)
    (client : WebHook → WebHookPostPayload → error) (sched : List Action) (e : Entry)
    (hacc : e.Level ∈ sh.Levels) (hasync : sh.Async = true) :
    sh.GetHook client sched e =
      { sh := sh.onceDo,
        ret := some none,
        dispatch := some (Dispatch.async (sh.payload e)
          (sh.postMessage client sh.onceHook (sh.payload e) sched)) } := by
  have h1 : sh.onceDo.isAcceptedLevel e.Level = true := by
    rw [onceDo_isAcceptedLevel]; exact (isAcceptedLevel_iff sh e.Level).2 hacc
  simp [SlackHook.GetHook, h1, onceDo_Async, hasync, onceDo_payload, onceDo_postMessage]

theorem postMessage_no_timeout (sh : SlackHook)
    (client : WebHook → WebHookPostPayload → error) (hook : WebHook)
    (p : WebHookPostPayload) (sched : List Action) (h : sh.Timeout ≤ 0) :
    sh.postMessage client hook p sched = { ret := some (client hook p), posts := [p] } := by
  simp [SlackHook.postMessage, h]

/-- C2: `NewSlackHook(u, l)` has `HookURL = u`, accepted set exactly `[l]` and
every other field zero; its callback accepts an entry of level `m` (the level
test succeeds, a synchronous dispatch takes place and one payload reaches
`PostMessage`) exactly when `m = l`, so an entry at any other level, a more
severe one included, is filtered out. -/
theorem NewSlackHook_accepts_exactly (u : String) (l : Level) :
    (NewSlackHook u l).HookURL = u ∧
    (NewSlackHook u l).AcceptedLevels = some [l] ∧
    (NewSlackHook u l).Levels = [l] ∧
    (NewSlackHook u l).Async = false ∧
    (NewSlackHook u l).Timeout = 0 ∧
    (NewSlackHook u l).Username = "" ∧ (NewSlackHook u l).Channel = "" ∧
    (NewSlackHook u l).IconEmoji = "" ∧ (NewSlackHook u l).IconURL = "" ∧
    (NewSlackHook u l).FieldHeader = "" ∧ (NewSlackHook u l).hook = none ∧
    (∀ m : Level, (NewSlackHook u l).isAcceptedLevel m = true ↔ m = l) ∧
    (∀ (client : WebHook → WebHookPostPayload → error) (sched : List Action) (m : Level)
        (msg : String),
      (((NewSlackHook u l).GetHook client sched ⟨m, msg⟩).dispatch.isSome = true ↔ m = l) ∧
      (((NewSlackHook u l).GetHook client sched ⟨m, msg⟩).posts.length = 1 ↔ m = l) ∧
      (l < m → ((NewSlackHook u l).GetHook client sched ⟨m, msg⟩).posts = [])) := by
  have hlv : (NewSlackHook u l).Levels = [l] := rfl
  have hacc : ∀ m : Level, (NewSlackHook u l).isAcceptedLevel m = true ↔ m = l := by
    intro m; rw [isAcceptedLevel_iff, hlv]; simp
  refine ⟨rfl, rfl, rfl, rfl, rfl, rfl, rfl, rfl, rfl, rfl, rfl, hacc, ?_⟩
  intro client sched m msg
  by_cases hm : m = l
  · have hin : (⟨m, msg⟩ : Entry).Level ∈ (NewSlackHook u l).Levels := by
      rw [hlv]; simp [hm]
    have hto : (NewSlackHook u l).Timeout ≤ 0 := by
      show (0 : Int) ≤ 0
      exact le_refl 0
    rw [GetHook_accepted_sync _ client sched _ hin rfl, postMessage_no_timeout _ _ _ _ _ hto]
    refine ⟨by simp [hm], by simp [hm, CallResult.posts, Dispatch.run], ?_⟩
    intro hlt; exact absurd hm (ne_of_gt hlt)
  · have hout : (⟨m, msg⟩ : Entry).Level ∉ (NewSlackHook u l).Levels := by
      rw [hlv]; simpa using hm
    obtain ⟨_, hd, hp⟩ := GetHook_rejected_no_send (NewSlackHook u l) client sched ⟨m, msg⟩ hout
    rw [hd, hp]
    simp [hm]

theorem NewSlackHook_accepts_exactly_witness :
    ((NewSlackHook "https://hooks.example/T" WarnLevel).GetHook (fun _ _ => none) []
        ⟨ErrorLevel, "boom"⟩).posts = [] :=
  ((NewSlackHook_accepts_exactly "https://hooks.example/T" WarnLevel).2.2.2.2.2.2.2.2.2.2.2.2
    (fun _ _ => none) [] ErrorLevel "boom").2.2 (by decide)

/-- C3: the hook of the example program, `NewSlackHook(url, ErrorLevel)`, sends
for an Error entry only: an entry at FatalLevel or at PanicLevel is filtered out
like a Debug entry (nil is returned, nothing is dispatched), although the
comment in the example announces a notification at error, fatal and panic. -/
theorem exampleHook_skips_fatal_and_panic
    (client : WebHook → WebHookPostPayload → error) (sched : List Action) (msg : String) :
    ((exampleHook.GetHook client sched ⟨FatalLevel, msg⟩).ret = some none ∧
      (exampleHook.GetHook client sched ⟨FatalLevel, msg⟩).dispatch = none ∧
      (exampleHook.GetHook client sched ⟨FatalLevel, msg⟩).posts = []) ∧
    ((exampleHook.GetHook client sched ⟨PanicLevel, msg⟩).ret = some none ∧
      (exampleHook.GetHook client sched ⟨PanicLevel, msg⟩).dispatch = none ∧
      (exampleHook.GetHook client sched ⟨PanicLevel, msg⟩).posts = []) ∧
    ((exampleHook.GetHook client sched ⟨DebugLevel, msg⟩).ret = some none ∧
      (exampleHook.GetHook client sched ⟨DebugLevel, msg⟩).dispatch = none ∧
      (exampleHook.GetHook client sched ⟨DebugLevel, msg⟩).posts = []) ∧
    (exampleHook.GetHook client sched ⟨ErrorLevel, msg⟩).posts
      = [exampleHook.payload ⟨ErrorLevel, msg⟩] := by
  have hlv : exampleHook.Levels = [ErrorLevel] := rfl
  refine ⟨GetHook_rejected_no_send _ _ _ _ ?_, GetHook_rejected_no_send _ _ _ _ ?_,
    GetHook_rejected_no_send _ _ _ _ ?_, ?_⟩
  · rw [hlv]; show FatalLevel ∉ [ErrorLevel]; decide
  · rw [hlv]; show PanicLevel ∉ [ErrorLevel]; decide
  · rw [hlv]; show DebugLevel ∉ [ErrorLevel]; decide
  · have hin : (⟨ErrorLevel, msg⟩ : Entry).Level ∈ exampleHook.Levels := by
      rw [hlv]; simp
    have hto : exampleHook.Timeout ≤ 0 := by
      show (0 : Int) ≤ 0
      exact le_refl 0
    rw [GetHook_accepted_sync _ client sched _ hin rfl, postMessage_no_timeout _ _ _ _ _ hto]
    simp [CallResult.posts, Dispatch.run]

/-! ## LevelThreshold -/

/-- C4: for every level `l`, `LevelThreshold(l)` is the suffix of `AllLevels`
starting at the first occurrence of `l`, that is `dropWhile (!= l) AllLevels`;
`LevelThreshold(warn) = [warn, error, fatal, panic]`; and for a level that does
not occur in `AllLevels`, such as DPanicLevel, the result is empty. -/
theorem LevelThreshold_eq_dropWhile (l : Level) :
    LevelThreshold l = AllLevels.dropWhile (fun x => x != l) ∧
    (∃ before : List Level, AllLevels = before ++ LevelThreshold l ∧ l ∉ before) ∧
    LevelThreshold WarnLevel = [WarnLevel, ErrorLevel, FatalLevel, PanicLevel] ∧
    (l ∉ AllLevels → LevelThreshold l = []) ∧
    (DPanicLevel ∉ AllLevels ∧ LevelThreshold DPanicLevel = []) := by
  have hdw : ∀ k : Level, LevelThreshold k = AllLevels.dropWhile (fun x => x != k) :=
    fun k => LevelThresholdLoop_eq k AllLevels 0 rfl
  refine ⟨hdw l, ⟨AllLevels.takeWhile (fun x => x != l), ?_, ?_⟩, by decide, ?_, by decide,
    by decide⟩
  · rw [hdw l, List.takeWhile_append_dropWhile]
  · intro hmem
    have := List.mem_takeWhile_imp hmem
    simp at this
  · intro hl
    rw [hdw l, List.dropWhile_eq_nil_iff]
    intro x hx
    have hne : x ≠ l := fun h => hl (h ▸ hx)
    simpa using hne

theorem LevelThreshold_eq_dropWhile_witness : LevelThreshold 42 = [] :=
  (LevelThreshold_eq_dropWhile 42).2.2.2.1 (by decide)

/-- C5: `LevelThreshold` follows the order of `AllLevels`, not the severity
order of zapcore: `LevelThreshold(ErrorLevel)` is `[error, fatal, panic]` and
omits DPanicLevel although `ErrorLevel <= DPanicLevel`; `LevelThreshold(PanicLevel)`
is `[panic]` and omits FatalLevel although `PanicLevel <= FatalLevel`; and
`LevelThreshold(FatalLevel)` contains PanicLevel although PanicLevel is below
FatalLevel. -/
theorem LevelThreshold_not_zap_order :
    (LevelThreshold ErrorLevel = [ErrorLevel, FatalLevel, PanicLevel] ∧
      ErrorLevel ∈ AllLevels ∧ ErrorLevel ≤ DPanicLevel ∧
      DPanicLevel ∉ LevelThreshold ErrorLevel) ∧
    (LevelThreshold PanicLevel = [PanicLevel] ∧
      PanicLevel ∈ AllLevels ∧ PanicLevel ≤ FatalLevel ∧
      FatalLevel ∉ LevelThreshold PanicLevel) ∧
    (LevelThreshold FatalLevel = [FatalLevel, PanicLevel] ∧
      FatalLevel ∈ AllLevels ∧ ¬ FatalLevel ≤ PanicLevel ∧
      PanicLevel ∈ LevelThreshold FatalLevel) := by
  decide

/-- C6: with `AcceptedLevels` nil the accepted set is `AllLevels`, which lacks
DPanicLevel: `isAcceptedLevel(DPanicLevel)` is false and the callback returns
nil without dispatching an entry at DPanicLevel, the same for an entry at a
level such as 42. -/
theorem nil_AcceptedLevels_skips_DPanic (sh : SlackHook)
    (client : WebHook → WebHookPostPayload → error) (sched : List Action) (msg : String)
    (h : sh.AcceptedLevels = none) :
    sh.Levels = AllLevels ∧
    sh.isAcceptedLevel DPanicLevel = false ∧
    (sh.GetHook client sched ⟨DPanicLevel, msg⟩).ret = some none ∧
    (sh.GetHook client sched ⟨DPanicLevel, msg⟩).dispatch = none ∧
    (sh.GetHook client sched ⟨DPanicLevel, msg⟩).posts = [] ∧
    sh.isAcceptedLevel 42 = false := by
  have hlv : sh.Levels = AllLevels := by simp [SlackHook.Levels, h]
  have hout : (⟨DPanicLevel, msg⟩ : Entry).Level ∉ sh.Levels := by
    rw [hlv]; show DPanicLevel ∉ AllLevels; decide
  obtain ⟨h1, h2, h3⟩ := GetHook_rejected_no_send sh client sched ⟨DPanicLevel, msg⟩ hout
  refine ⟨hlv, ?_, h1, h2, h3, ?_⟩
  · simp only [SlackHook.isAcceptedLevel, hlv]; decide
  · simp only [SlackHook.isAcceptedLevel, hlv]; decide

theorem nil_AcceptedLevels_skips_DPanic_witness :
    (({ HookURL := "https://hooks.example/T" } : SlackHook).GetHook
        (fun _ _ => none) [] ⟨DPanicLevel, "invariant broken"⟩).dispatch = none :=
  (nil_AcceptedLevels_skips_DPanic { HookURL := "https://hooks.example/T" }
    (fun _ _ => none) [] "invariant broken" rfl).2.2.2.1

/-! ## The race between the send and the timer -/

theorem RaceInv_init (outcome : error) (payload : WebHookPostPayload) :
    RaceInv outcome payload raceInit := by
  simp [RaceInv, raceInit]

theorem RaceInv_step (client : WebHook → WebHookPostPayload → error) (hook : WebHook)
    (payload : WebHookPostPayload) (a : Action) (s t : RaceState)
    (hs : RaceInv (client hook payload) payload s)
    (hstep : raceStep client hook payload a s = some t) :
    RaceInv (client hook payload) payload t := by
  obtain ⟨main, worker, ech, timer, posts⟩ := s
  cases a <;> cases main <;> cases worker <;> cases ech <;> cases timer <;>
    simp [raceStep, RaceInv, RaceInv.pastPlaceholder] at hs hstep ⊢ <;>
    subst hstep <;> simp_all [RaceInv, RaceInv.pastPlaceholder]

theorem runRace_append (client : WebHook → WebHookPostPayload → error) (hook : WebHook)
    (payload : WebHookPostPayload) (xs ys : List Action) :
    ∀ s : RaceState, runRace client hook payload (xs ++ ys) s
      = runRace client hook payload ys (runRace client hook payload xs s) := by
  induction xs with
  | nil => intro s; rfl
  | cons a rest ih =>
    intro s
    cases hstep : raceStep client hook payload a s with
    | none => simp [runRace, hstep, ih]
    | some t => simp [runRace, hstep, ih]

theorem RaceInv_run (client : WebHook → WebHookPostPayload → error) (hook : WebHook)
    (payload : WebHookPostPayload) (sched : List Action) :
    ∀ s : RaceState, RaceInv (client hook payload) payload s →
      RaceInv (client hook payload) payload (runRace client hook payload sched s) := by
  induction sched with
  | nil => intro s hs; exact hs
  | cons a rest ih =>
    intro s hs
    cases hstep : raceStep client hook payload a s with
    | none => simpa [runRace, hstep] using ih s hs
    | some t =>
      simpa [runRace, hstep] using ih t (RaceInv_step client hook payload a s t hs hstep)

theorem RaceInv_reachable (client : WebHook → WebHookPostPayload → error) (hook : WebHook)
    (payload : WebHookPostPayload) (sched : List Action) :
    RaceInv (client hook payload) payload (runRace client hook payload sched raceInit) :=
  RaceInv_run client hook payload sched raceInit (RaceInv_init _ _)

theorem returned_step (client : WebHook → WebHookPostPayload → error) (hook : WebHook)
    (payload : WebHookPostPayload) (a : Action) (s t : RaceState) (r : error)
    (hs : s.main = MainPc.returned r)
    (hstep : raceStep client hook payload a s = some t) :
    t.main = MainPc.returned r := by
  obtain ⟨main, worker, ech, timer, posts⟩ := s
  simp only at hs
  subst hs
  cases a <;> cases worker <;> cases ech <;> cases timer <;>
    simp [raceStep] at hstep ⊢ <;> subst hstep <;> rfl

theorem returned_run (client : WebHook → WebHookPostPayload → error) (hook : WebHook)
    (payload : WebHookPostPayload) (sched : List Action) (r : error) :
    ∀ s : RaceState, s.main = MainPc.returned r →
      (runRace client hook payload sched s).main = MainPc.returned r := by
  induction sched with
  | nil => intro s hs; exact hs
  | cons a rest ih =>
    intro s hs
    cases hstep : raceStep client hook payload a s with
    | none => simpa [runRace, hstep] using ih s hs
    | some t =>
      simpa [runRace, hstep] using ih t (returned_step client hook payload a s t r hs hstep)

theorem result_eq_some (m : MainPc) (r : error) :
    m.result = some r ↔ m = MainPc.returned r := by
  cases m <;> simp [MainPc.result]

theorem drain_returns (client : WebHook → WebHookPostPayload → error) (hook : WebHook)
    (payload : WebHookPostPayload) (s : RaceState)
    (hs : RaceInv (client hook payload) payload s) :
    (runRace client hook payload drainSchedule s).main.result.isSome = true := by
  obtain ⟨main, worker, ech, timer, posts⟩ := s
  cases main <;> cases worker <;> cases ech <;> cases timer <;>
    simp [RaceInv, RaceInv.pastPlaceholder] at hs <;>
    simp [drainSchedule, runRace, raceStep, MainPc.result]

theorem postMessage_timeout_eq (sh : SlackHook)
    (client : WebHook → WebHookPostPayload → error) (hook : WebHook)
    (p : WebHookPostPayload) (sched : List Action) (h : 0 < sh.Timeout) :
    sh.postMessage client hook p sched =
      { ret := (runRace client hook p sched raceInit).main.result,
        posts := (runRace client hook p sched raceInit).posts } := by
  have hn : ¬ sh.Timeout ≤ 0 := not_le.mpr h
  simp [SlackHook.postMessage, hn]

theorem RaceInv_posts (outcome : error) (payload : WebHookPostPayload) (s : RaceState)
    (hs : RaceInv outcome payload s) : s.posts = [] ∨ s.posts = [payload] := by
  obtain ⟨main, worker, ech, timer, posts⟩ := s
  cases main <;> simp [RaceInv, RaceInv.pastPlaceholder] at hs <;> aesop

theorem postMessage_posts (sh : SlackHook)
    (client : WebHook → WebHookPostPayload → error) (hook : WebHook)
    (p : WebHookPostPayload) (sched : List Action) :
    ∀ q ∈ (sh.postMessage client hook p sched).posts, q = p := by
  intro q hq
  by_cases h : sh.Timeout ≤ 0
  · rw [postMessage_no_timeout _ _ _ _ _ h] at hq
    simpa using hq
  · rw [postMessage_timeout_eq _ _ _ _ _ (not_le.mp h)] at hq
    rcases RaceInv_posts _ _ _ (RaceInv_reachable client hook p sched) with h0 | h1
    · simp [h0] at hq
    · simpa [h1] using hq

/-! ## Payload and dispatch of an accepted entry -/

theorem LevelColorMap_absent (l : Level) (h : l ∉ AllLevels) : LevelColorMap l = none := by
  simp [AllLevels, DebugLevel, InfoLevel, WarnLevel, ErrorLevel, FatalLevel, PanicLevel] at h
  obtain ⟨h1, h2, h3, h4, h5, h6⟩ := h
  simp [LevelColorMap, LevelColorTable, List.lookup, DebugLevel, InfoLevel, WarnLevel,
    ErrorLevel, FatalLevel, PanicLevel]
  have e1 : (l == -1) = false := by simpa using h1
  have e2 : (l == 0) = false := by simpa using h2
  have e3 : (l == 1) = false := by simpa using h3
  have e4 : (l == 2) = false := by simpa using h4
  have e5 : (l == 5) = false := by simpa using h5
  have e6 : (l == 4) = false := by simpa using h6
  simp [e1, e2, e3, e4, e5, e6]

/-- C7: for every hook and every accepted entry `e`, the callback dispatches one
payload, the payloads reaching `PostMessage` are that payload, its `Username`,
`Channel`, `IconEmoji` and `IconUrl` are those of the hook, and it has exactly
one attachment with `Text = Fallback = e.Message` and `Color` the
`LevelColorMap` lookup of `e.Level`: "#9B30FF" for debug, "good" for info,
"warning" for warn, "danger" for error, fatal and panic, and "" for an accepted
level outside the table. -/
theorem GetHook_payload (sh : SlackHook)
    (client : WebHook → WebHookPostPayload → error) (sched : List Action) (e : Entry)
    (hacc : e.Level ∈ sh.Levels) :
    ∃ (d : Dispatch) (color : String),
      (sh.GetHook client sched e).dispatch = some d ∧
      (∀ q ∈ (sh.GetHook client sched e).posts, q = d.payload) ∧
      d.payload.Username = sh.Username ∧
      d.payload.Channel = sh.Channel ∧
      d.payload.IconEmoji = sh.IconEmoji ∧
      d.payload.IconUrl = sh.IconURL ∧
      d.payload.Attachments = [{ Text := e.Message, Fallback := e.Message, Color := color }] ∧
      color = (LevelColorMap e.Level).getD "" ∧
      (e.Level = DebugLevel → color = "#9B30FF") ∧
      (e.Level = InfoLevel → color = "good") ∧
      (e.Level = WarnLevel → color = "warning") ∧
      (e.Level = ErrorLevel → color = "danger") ∧
      (e.Level = FatalLevel → color = "danger") ∧
      (e.Level = PanicLevel → color = "danger") ∧
      (e.Level ∉ AllLevels → color = "") := by
  have hcolor :
      ((e.Level = DebugLevel → (LevelColorMap e.Level).getD "" = "#9B30FF") ∧
      (e.Level = InfoLevel → (LevelColorMap e.Level).getD "" = "good") ∧
      (e.Level = WarnLevel → (LevelColorMap e.Level).getD "" = "warning") ∧
      (e.Level = ErrorLevel → (LevelColorMap e.Level).getD "" = "danger") ∧
      (e.Level = FatalLevel → (LevelColorMap e.Level).getD "" = "danger") ∧
      (e.Level = PanicLevel → (LevelColorMap e.Level).getD "" = "danger") ∧
      (e.Level ∉ AllLevels → (LevelColorMap e.Level).getD "" = "")) := by
    refine ⟨?_, ?_, ?_, ?_, ?_, ?_, ?_⟩
    · intro h; rw [h]; rfl
    · intro h; rw [h]; rfl
    · intro h; rw [h]; rfl
    · intro h; rw [h]; rfl
    · intro h; rw [h]; rfl
    · intro h; rw [h]; rfl
    · intro h; rw [LevelColorMap_absent _ h]; rfl
  cases hasync : sh.Async with
  | false =>
    refine ⟨Dispatch.sync (sh.payload e) (sh.postMessage client sh.onceHook (sh.payload e) sched),
      (LevelColorMap e.Level).getD "", ?_, ?_, rfl, rfl, rfl, rfl, rfl, rfl, hcolor⟩
    · rw [GetHook_accepted_sync _ client sched _ hacc hasync]
    · rw [GetHook_accepted_sync _ client sched _ hacc hasync]
      exact postMessage_posts sh client sh.onceHook (sh.payload e) sched
  | true =>
    refine ⟨Dispatch.async (sh.payload e) (sh.postMessage client sh.onceHook (sh.payload e) sched),
      (LevelColorMap e.Level).getD "", ?_, ?_, rfl, rfl, rfl, rfl, rfl, rfl, hcolor⟩
    · rw [GetHook_accepted_async _ client sched _ hacc hasync]
    · rw [GetHook_accepted_async _ client sched _ hacc hasync]
      exact postMessage_posts sh client sh.onceHook (sh.payload e) sched

theorem GetHook_payload_witness :
    ∃ (d : Dispatch) (color : String),
      (({ AcceptedLevels := some [DPanicLevel], Username := "bot", Channel := "#ops" }
        : SlackHook).GetHook (fun _ _ => none) [] ⟨DPanicLevel, "odd"⟩).dispatch = some d ∧
      d.payload.Username = "bot" ∧ d.payload.Channel = "#ops" ∧
      d.payload.Attachments = [{ Text := "odd", Fallback := "odd", Color := color }] ∧
      color = "" := by
  obtain ⟨d, color, h1, _, h3, h4, _, _, h7, _, _, _, _, _, _, _, h15⟩ :=
    GetHook_payload { AcceptedLevels := some [DPanicLevel], Username := "bot", Channel := "#ops" }
      (fun _ _ => none) [] ⟨DPanicLevel, "odd"⟩ (by decide)
  exact ⟨d, color, h1, h3, h4, h7, h15 (by decide)⟩

/-- C8: for every hook with `Async = false` and `Timeout <= 0` and every
accepted entry, the callback hands the built payload to `PostMessage` exactly
once and returns exactly the result of that call: nil when the send succeeds,
the same error when it fails. -/
theorem GetHook_sync_returns_send_result (sh : SlackHook)
    (client : WebHook → WebHookPostPayload → error) (sched : List Action) (e : Entry)
    (hasync : sh.Async = false) (hto : sh.Timeout ≤ 0) (hacc : e.Level ∈ sh.Levels) :
    (sh.GetHook client sched e).posts = [sh.payload e] ∧
    (sh.GetHook client sched e).ret = some (client sh.onceHook (sh.payload e)) ∧
    (sh.GetHook client sched e).dispatch = some (Dispatch.sync (sh.payload e)
      { ret := some (client sh.onceHook (sh.payload e)), posts := [sh.payload e] }) ∧
    (client sh.onceHook (sh.payload e) = none →
      (sh.GetHook client sched e).ret = some none) ∧
    (∀ err : GoError, client sh.onceHook (sh.payload e) = some err →
      (sh.GetHook client sched e).ret = some (some err)) := by
  rw [GetHook_accepted_sync _ client sched _ hacc hasync, postMessage_no_timeout _ _ _ _ _ hto]
  refine ⟨by simp [CallResult.posts, Dispatch.run], rfl, rfl, ?_, ?_⟩
  · intro h; simp [h]
  · intro err h; simp [h]

theorem GetHook_sync_returns_send_result_witness :
    (({ AcceptedLevels := some [ErrorLevel], Timeout := -1 } : SlackHook).GetHook
        (fun _ _ => some (GoError.transport "502")) [] ⟨ErrorLevel, "boom"⟩).ret
      = some (some (GoError.transport "502")) :=
  (GetHook_sync_returns_send_result { AcceptedLevels := some [ErrorLevel], Timeout := -1 }
    (fun _ _ => some (GoError.transport "502")) [] ⟨ErrorLevel, "boom"⟩
    rfl (by decide) (by decide)).2.2.2.2 (GoError.transport "502") rfl

/-- C9: for every hook with `Async = true` and every accepted entry, the
callback returns nil whatever the client answers and whatever the schedule of
the spawned `postMessage` is; the send is handed to a `go` statement and its
result is not the returned value. -/
theorem GetHook_async_returns_nil (sh : SlackHook)
    (client : WebHook → WebHookPostPayload → error) (sched : List Action) (e : Entry)
    (hasync : sh.Async = true) (hacc : e.Level ∈ sh.Levels) :
    (sh.GetHook client sched e).ret = some none ∧
    (sh.GetHook client sched e).dispatch = some (Dispatch.async (sh.payload e)
      (sh.postMessage client sh.onceHook (sh.payload e) sched)) := by
  rw [GetHook_accepted_async _ client sched _ hacc hasync]
  exact ⟨rfl, rfl⟩

theorem GetHook_async_returns_nil_witness :
    (({ AcceptedLevels := some [ErrorLevel], Async := true, Timeout := 50 } : SlackHook).GetHook
        (fun _ _ => some (GoError.transport "502"))
        [Action.worker, Action.recvFirst, Action.timerFire, Action.selectTimeout]
        ⟨ErrorLevel, "boom"⟩).ret = some none :=
  (GetHook_async_returns_nil { AcceptedLevels := some [ErrorLevel], Async := true, Timeout := 50 }
    (fun _ _ => some (GoError.transport "502"))
    [Action.worker, Action.recvFirst, Action.timerFire, Action.selectTimeout]
    ⟨ErrorLevel, "boom"⟩ rfl (by decide)).1

theorem ret_of_step (sh : SlackHook)
    (client : WebHook → WebHookPostPayload → error) (hook : WebHook)
    (payload : WebHookPostPayload) (h : 0 < sh.Timeout)
    (sched more : List Action) (a : Action) (t : RaceState) (r : error)
    (hstep : raceStep client hook payload a (runRace client hook payload sched raceInit) = some t)
    (hret : t.main = MainPc.returned r) :
    (sh.postMessage client hook payload (sched ++ a :: more)).ret = some r := by
  rw [postMessage_timeout_eq _ _ _ _ _ h, runRace_append]
  simp only [runRace, hstep]
  exact (result_eq_some _ _).2 (returned_run client hook payload more r t hret)

theorem ret_of_two_steps (sh : SlackHook)
    (client : WebHook → WebHookPostPayload → error) (hook : WebHook)
    (payload : WebHookPostPayload) (h : 0 < sh.Timeout)
    (sched more : List Action) (a b : Action) (t u : RaceState) (r : error)
    (hstep : raceStep client hook payload a (runRace client hook payload sched raceInit) = some t)
    (hnext : raceStep client hook payload b t = some u)
    (hret : u.main = MainPc.returned r) :
    (sh.postMessage client hook payload (sched ++ a :: b :: more)).ret = some r := by
  rw [postMessage_timeout_eq _ _ _ _ _ h, runRace_append]
  simp only [runRace, hstep, hnext]
  exact (result_eq_some _ _).2 (returned_run client hook payload more r u hret)

/-- C10, the claim as stated fails: with `Timeout = 1` and a client answering
error 502, the timer has fired while `PostMessage` has not even been called (the
channel is empty), yet the `select`, examining its cases once both are ready,
takes the receive case and `postMessage` returns the 502 error, not
`TimeoutError`; and with a client answering nil, the outcome is in the channel
while the timer is still running, yet once the timer fired too the `select`
takes the timer case and `postMessage` returns `TimeoutError`. -/
theorem postMessage_order_counterexample :
    ((runRace (fun _ _ => some (GoError.transport "502")) (NewWebHook "u") {}
        [Action.worker, Action.recvFirst, Action.timerFire] raceInit)
      = { main := MainPc.selecting, worker := WorkerPc.callPost, ech := none,
          timer := Timer.fired, posts := [] } ∧
     (({ Timeout := 1 } : SlackHook).postMessage
        (fun _ _ => some (GoError.transport "502")) (NewWebHook "u") {}
        ([Action.worker, Action.recvFirst, Action.timerFire]
          ++ [Action.worker, Action.worker, Action.selectRecv])).ret
      = some (some (GoError.transport "502")) ∧
     some (GoError.transport "502") ≠ some TimeoutError) ∧
    ((runRace (fun _ _ => none) (NewWebHook "u") {}
        [Action.worker, Action.recvFirst, Action.worker, Action.worker] raceInit)
      = { main := MainPc.selecting, worker := WorkerPc.finished, ech := some none,
          timer := Timer.running, posts := [{}] } ∧
     (({ Timeout := 1 } : SlackHook).postMessage (fun _ _ => none) (NewWebHook "u") {}
        ([Action.worker, Action.recvFirst, Action.worker, Action.worker]
          ++ [Action.timerFire, Action.selectTimeout])).ret
      = some (some TimeoutError) ∧
     (none : error) ≠ some TimeoutError) := by
  refine ⟨⟨?_, ?_, ?_⟩, ?_, ?_, ?_⟩
  · simp [runRace, raceStep, raceInit]
  · simp [SlackHook.postMessage, runRace, raceStep, raceInit, MainPc.result]
  · simp [TimeoutError]
  · simp [runRace, raceStep, raceInit]
  · simp [SlackHook.postMessage, runRace, raceStep, raceInit, MainPc.result]
  · simp

/-- C10, amended: for every hook with `Timeout > 0`, under every schedule of the
goroutine, the channel, the timer and the `select`, `postMessage` returns only
the outcome of `PostMessage` or `TimeoutError`, so a failed send is never
reported as nil; it can always be driven to return, and the returned value is
final.  The first receive consumes the placeholder nil, sent before the
goroutine stores any outcome; afterwards the channel holds nothing but the
outcome of the call.  When the `select` examines its cases: with the timer
fired and no outcome in the channel every continuation through the timer case
returns `TimeoutError` and no other case is enabled; with the outcome in the
channel and the timer not fired every continuation through the receive case
returns that outcome and no other case is enabled; with both ready either
result is returned; with none ready the caller blocks.  Once the caller is
blocked in the `select`, the first event decides for every continuation:
expiry of the timer gives `TimeoutError`, delivery of the outcome gives that
outcome. -/
theorem postMessage_timeout_race (sh : SlackHook)
    (client : WebHook → WebHookPostPayload → error) (hook : WebHook)
    (payload : WebHookPostPayload) (h : 0 < sh.Timeout) :
    (∀ (sched : List Action) (r : error),
      (sh.postMessage client hook payload sched).ret = some r →
        r = client hook payload ∨ r = some TimeoutError) ∧
    (∀ sched : List Action, client hook payload ≠ none →
      (sh.postMessage client hook payload sched).ret ≠ some none) ∧
    (∀ sched : List Action,
      (sh.postMessage client hook payload (sched ++ drainSchedule)).ret.isSome = true) ∧
    (∀ (sched more : List Action) (r : error),
      (sh.postMessage client hook payload sched).ret = some r →
        (sh.postMessage client hook payload (sched ++ more)).ret = some r) ∧
    (∀ (sched : List Action) (s : RaceState),
      s = runRace client hook payload sched raceInit → s.main = MainPc.recvFirst →
        ∀ v : error, s.ech = some v →
          v = none ∧ s.worker ≠ WorkerPc.finished ∧
          raceStep client hook payload Action.recvFirst s
            = some { s with main := MainPc.selecting, ech := none, timer := Timer.running }) ∧
    (∀ (sched : List Action) (s : RaceState),
      s = runRace client hook payload sched raceInit → s.main = MainPc.selecting →
        (∀ v : error, s.ech = some v → v = client hook payload ∧ s.posts = [payload]) ∧
        (s.timer = Timer.fired → s.ech = none →
          (∀ more : List Action,
            (sh.postMessage client hook payload (sched ++ Action.selectTimeout :: more)).ret
              = some (some TimeoutError)) ∧
          raceStep client hook payload Action.selectRecv s = none ∧
          raceStep client hook payload Action.selectBlock s = none) ∧
        (s.timer ≠ Timer.fired → s.ech ≠ none →
          (∀ more : List Action,
            (sh.postMessage client hook payload (sched ++ Action.selectRecv :: more)).ret
              = some (client hook payload)) ∧
          raceStep client hook payload Action.selectTimeout s = none ∧
          raceStep client hook payload Action.selectBlock s = none) ∧
        (s.timer = Timer.fired → s.ech ≠ none →
          (∀ more : List Action,
            (sh.postMessage client hook payload (sched ++ Action.selectRecv :: more)).ret
              = some (client hook payload)) ∧
          (∀ more : List Action,
            (sh.postMessage client hook payload (sched ++ Action.selectTimeout :: more)).ret
              = some (some TimeoutError)) ∧
          raceStep client hook payload Action.selectBlock s = none) ∧
        (s.timer ≠ Timer.fired → s.ech = none →
          raceStep client hook payload Action.selectBlock s
            = some { s with main := MainPc.parked } ∧
          raceStep client hook payload Action.selectRecv s = none ∧
          raceStep client hook payload Action.selectTimeout s = none)) ∧
    (∀ (sched : List Action) (s : RaceState),
      s = runRace client hook payload sched raceInit → s.main = MainPc.parked →
        s.ech = none ∧ s.timer = Timer.running ∧
        (∀ more : List Action,
          (sh.postMessage client hook payload (sched ++ Action.timerFire :: more)).ret
            = some (some TimeoutError)) ∧
        (∀ r : error, s.worker = WorkerPc.sendResult r → ∀ more : List Action,
          (sh.postMessage client hook payload (sched ++ Action.worker :: more)).ret
            = some (client hook payload)) ∧
        (s.worker = WorkerPc.callPost → ∀ more : List Action,
          (sh.postMessage client hook payload
            (sched ++ Action.worker :: Action.worker :: more)).ret
            = some (client hook payload))) ∧
    (sh.postMessage client hook payload
        [Action.worker, Action.recvFirst, Action.selectBlock, Action.worker, Action.worker]).ret
      = some (client hook payload) ∧
    (sh.postMessage client hook payload
        [Action.worker, Action.recvFirst, Action.selectBlock, Action.timerFire]).ret
      = some (some TimeoutError) := by
  have hret : ∀ (sched : List Action) (r : error),
      (sh.postMessage client hook payload sched).ret = some r →
        r = client hook payload ∨ r = some TimeoutError := by
    intro sched r hr
    rw [postMessage_timeout_eq _ _ _ _ _ h] at hr
    have hm := (result_eq_some _ _).1 hr
    have hinv := RaceInv_reachable client hook payload sched
    simp only [RaceInv, hm] at hinv
    rcases hinv with ⟨h1, _⟩ | ⟨h1, _⟩
    · exact Or.inl h1
    · exact Or.inr h1
  refine ⟨hret, ?_, ?_, ?_, ?_, ?_, ?_, ?_, ?_⟩
  · intro sched hfail hnil
    rcases hret sched none hnil with h1 | h1
    · exact hfail h1.symm
    · simp at h1
  · intro sched
    rw [postMessage_timeout_eq _ _ _ _ _ h, runRace_append]
    exact drain_returns client hook payload _ (RaceInv_reachable client hook payload sched)
  · intro sched more r hr
    rw [postMessage_timeout_eq _ _ _ _ _ h] at hr ⊢
    rw [runRace_append]
    have hm := (result_eq_some _ _).1 hr
    exact (result_eq_some _ _).2 (returned_run client hook payload more r _ hm)
  · intro sched s hs hmain v hv
    have hinv := RaceInv_reachable client hook payload sched
    rw [← hs] at hinv
    obtain ⟨main, worker, ech, timer, posts⟩ := s
    simp only at hmain hv
    subst hmain hv
    simp [RaceInv] at hinv
    refine ⟨?_, ?_, by simp [raceStep]⟩
    · rcases hinv with ⟨_, ⟨_, h2, _⟩ | ⟨_, h2, _⟩⟩
      · exact h2
      · exact h2
    · rcases hinv with ⟨_, ⟨h1, _, _⟩ | ⟨h1, _, _⟩⟩
      · simp [h1]
      · simp [h1]
  · intro sched s hs hmain
    have hinv := RaceInv_reachable client hook payload sched
    rw [← hs] at hinv
    have hstepOf : ∀ (a : Action) (t : RaceState) (r : error),
        raceStep client hook payload a s = some t → t.main = MainPc.returned r →
        ∀ more : List Action,
          (sh.postMessage client hook payload (sched ++ a :: more)).ret = some r := by
      intro a t r hstep hr more
      rw [hs] at hstep
      exact ret_of_step sh client hook payload h sched more a t r hstep hr
    clear hs
    obtain ⟨main, worker, ech, timer, posts⟩ := s
    simp only at hmain
    subst hmain
    simp [RaceInv, RaceInv.pastPlaceholder] at hinv
    obtain ⟨_, hpast⟩ := hinv
    have hech : ∀ v : error, ech = some v → v = client hook payload ∧ posts = [payload] := by
      intro v hv
      subst hv
      rcases hpast with ⟨_, h2, _⟩ | ⟨_, h2, _⟩ | ⟨_, h2, h3⟩
      · simp at h2
      · simp at h2
      · exact ⟨Option.some.inj h2, h3⟩
    refine ⟨hech, ?_, ?_, ?_, ?_⟩
    · intro ht he
      simp only at ht he
      subst ht he
      refine ⟨?_, by simp [raceStep], by simp [raceStep]⟩
      exact hstepOf Action.selectTimeout _ (some TimeoutError) rfl rfl
    · intro ht he
      simp only at ht he
      cases ech with
      | none => exact absurd rfl he
      | some v =>
        obtain ⟨hv, _⟩ := hech v rfl
        subst hv
        refine ⟨?_, ?_, by simp [raceStep]⟩
        · exact hstepOf Action.selectRecv _ (client hook payload) rfl rfl
        · cases timer <;> simp [raceStep] at ht ⊢
    · intro ht he
      simp only at ht he
      subst ht
      cases ech with
      | none => exact absurd rfl he
      | some v =>
        obtain ⟨hv, _⟩ := hech v rfl
        subst hv
        refine ⟨?_, ?_, by simp [raceStep]⟩
        · exact hstepOf Action.selectRecv _ (client hook payload) rfl rfl
        · exact hstepOf Action.selectTimeout _ (some TimeoutError) rfl rfl
    · intro ht he
      simp only at ht he
      subst he
      cases timer <;> simp [raceStep] at ht ⊢
      rename_i hidle
      exact absurd rfl hidle
  · intro sched s hs hmain
    have hinv := RaceInv_reachable client hook payload sched
    rw [← hs] at hinv
    have hstepOf : ∀ (a : Action) (t : RaceState) (r : error),
        raceStep client hook payload a s = some t → t.main = MainPc.returned r →
        ∀ more : List Action,
          (sh.postMessage client hook payload (sched ++ a :: more)).ret = some r := by
      intro a t r hstep hr more
      rw [hs] at hstep
      exact ret_of_step sh client hook payload h sched more a t r hstep hr
    have htwoOf : ∀ (a b : Action) (t u : RaceState) (r : error),
        raceStep client hook payload a s = some t →
        raceStep client hook payload b t = some u → u.main = MainPc.returned r →
        ∀ more : List Action,
          (sh.postMessage client hook payload (sched ++ a :: b :: more)).ret = some r := by
      intro a b t u r hstep hnext hr more
      rw [hs] at hstep
      exact ret_of_two_steps sh client hook payload h sched more a b t u r hstep hnext hr
    clear hs
    obtain ⟨main, worker, ech, timer, posts⟩ := s
    simp only at hmain
    subst hmain
    simp [RaceInv] at hinv
    obtain ⟨ht, he, hw⟩ := hinv
    subst ht he
    refine ⟨rfl, rfl, ?_, ?_, ?_⟩
    · exact hstepOf Action.timerFire _ (some TimeoutError) rfl rfl
    · intro r hr
      simp only at hr
      rcases hw with ⟨hw1, _⟩ | ⟨hw1, _⟩
      · rw [hw1] at hr; simp at hr
      · subst hw1
        exact hstepOf Action.worker _ (client hook payload) rfl rfl
    · intro hc
      simp only at hc
      subst hc
      exact htwoOf Action.worker Action.worker
        { main := MainPc.parked, worker := WorkerPc.sendResult (client hook payload),
          ech := none, timer := Timer.running, posts := posts ++ [payload] }
        { main := MainPc.returned (client hook payload), worker := WorkerPc.finished,
          ech := none, timer := Timer.running, posts := posts ++ [payload] }
        (client hook payload) rfl rfl rfl
  · rw [postMessage_timeout_eq _ _ _ _ _ h]
    simp [runRace, raceStep, raceInit, MainPc.result]
  · rw [postMessage_timeout_eq _ _ _ _ _ h]
    simp [runRace, raceStep, raceInit, MainPc.result]

theorem postMessage_timeout_race_witness :
    (0 : Int) < 50 ∧
    (({ Timeout := 50 } : SlackHook).postMessage (fun _ _ => some (GoError.transport "502"))
      (NewWebHook "https://hooks.example/T") { Username := "bot" }
      [Action.worker, Action.recvFirst, Action.worker, Action.worker, Action.selectRecv]).ret
        ≠ some none :=
  ⟨by decide,
    (postMessage_timeout_race { Timeout := 50 } (fun _ _ => some (GoError.transport "502"))
      (NewWebHook "https://hooks.example/T") { Username := "bot" } (by decide)).2.1
      [Action.worker, Action.recvFirst, Action.worker, Action.worker, Action.selectRecv]
      (by simp)⟩

end zapslack

